import Mathlib

/-!
Verification of the ESP32 firmware in `dwell-control-main/esp32/main.cpp`
and the helper header `aqua-guard-sense-main/esp32/firmware_common.h`.

The firmware is a flat sequential program over a handful of global
variables.  We embed it shallowly: Arduino `String` becomes `List Char`,
GPIO pin levels become `Bool` (`HIGH = true`, `LOW = false`), the EEPROM
becomes a function from byte addresses to byte values (each byte modelled
as a `Char`), and each C++ procedure becomes a pure Lean function that
takes the mutable globals in and returns them together with its
observable effects (WebSocket sends, HTTP POSTs, serial prints).  External
inputs (WiFi connectivity, GPIO reads, HTTP responses, inbound WebSocket
messages) are parameters of the corresponding functions.
-/

/-- Arduino `String`, as the list of its characters (bytes). -/
abbrev ArdString := List Char

/-- Model of `HIGH` from the Arduino core. -/
def HIGH : Bool := true

/-- Model of `LOW` from the Arduino core. -/
def LOW : Bool := false

/-- Model of `const int RELAY_PINS[] = {2, 4, 5, 18};` (main.cpp line 13). -/
def RELAY_PINS : Fin 4 → Nat := ![2, 4, 5, 18]

/-- Model of `const int MANUAL_SWITCH_PINS[] = {14, 12, 13, 15};` (main.cpp line 12). -/
def MANUAL_SWITCH_PINS : Fin 4 → Nat := ![14, 12, 13, 15]

/-- Model of `PIR_LINKED_SWITCHES` from config.h: `{true, false, false, false}`. -/
def PIR_LINKED_SWITCHES : Fin 4 → Bool := ![true, false, false, false]

/-- The firmware's mutable global variables, together with the last level
written to each output pin by `digitalWrite` (`pins p` is the last level
written to GPIO `p`). -/
structure DeviceState where
  deviceId : ArdString
  authToken : ArdString
  relayStates : Fin 4 → Bool
  manualOverride : Fin 4 → Bool
  pirState : Bool
  pins : Nat → Bool

/-- An outbound WebSocket text message (`webSocket.sendTXT`), abstracted to
the semantic content of the JSON document the firmware serializes. -/
inductive TxMsg where
  | switchUpdate (deviceId : ArdString) (switchId : ArdString) (state : Bool)
  | pirEvent (deviceId : ArdString) (motion : Bool)
  | deviceStatus (deviceId : ArdString)
deriving DecidableEq

/-- An HTTP POST issued by the firmware, abstracted to its endpoint and the
semantic content of its body. -/
inductive PostMsg where
  | register
  | activity (authToken deviceId switchId action triggeredBy : ArdString)
deriving DecidableEq

/-- The observable effects of one procedure call: WebSocket sends, HTTP
POSTs and serial log lines, each in program order. -/
structure Effects where
  sent : List TxMsg
  posts : List PostMsg
  serial : List ArdString
deriving DecidableEq

/-- No effect at all. -/
def Effects.noEff : Effects := ⟨[], [], []⟩

instance : Append Effects :=
  ⟨fun a b => ⟨a.sent ++ b.sent, a.posts ++ b.posts, a.serial ++ b.serial⟩⟩

/-- Model of `"sw" + String(i + 1)`: the wire identifier of switch index `i`. -/
def swId (i : Fin 4) : ArdString := ("sw" ++ toString (i.val + 1)).toList

/-- Model of `logActivity` (main.cpp lines 358-383).  It returns early when WiFi is
not connected; otherwise it POSTs one activity record.  It never writes
any global variable, which the Lean type (returning only `Effects`) makes
explicit. -/
def logActivity (conn : Bool) (st : DeviceState) (switchIndex : Fin 4)
    (action triggeredBy : ArdString) : Effects :=
  if conn then
    ⟨[], [PostMsg.activity st.authToken st.deviceId (swId switchIndex) action triggeredBy], []⟩
  else
    Effects.noEff

/-- Model of `sendSwitchStateUpdate` (main.cpp lines 293-304). -/
def sendSwitchStateUpdate (st : DeviceState) (switchIndex : Fin 4) : Effects :=
  ⟨[TxMsg.switchUpdate st.deviceId (swId switchIndex) (st.relayStates switchIndex)], [], []⟩

/-- Model of `toggleRelay` (main.cpp lines 229-237): store the requested state,
write the matching level to the relay pin, print a line, log the activity.
`conn` is the value of `WiFi.status() == WL_CONNECTED` observed by the
nested `logActivity` call. -/
def toggleRelay (relayIndex : Fin 4) (state : Bool) (conn : Bool)
    (st : DeviceState) : DeviceState × Effects :=
  let st1 : DeviceState :=
    { st with
      relayStates := Function.update st.relayStates relayIndex state
      pins := Function.update st.pins (RELAY_PINS relayIndex) (if state then HIGH else LOW) }
  let line : ArdString :=
    ("Relay " ++ toString (relayIndex.val + 1) ++ " turned " ++
      (if state then "ON" else "OFF")).toList
  let logEff := logActivity conn st1 relayIndex
    (if state then "on".toList else "off".toList) "remote".toList
  (st1, ⟨[], [], [line]⟩ ++ logEff)

/-- One iteration of the `for` loop in `checkManualSwitches`
(main.cpp lines 240-258), acting on the accumulated state and effects.
`r i` is the raw `digitalRead(MANUAL_SWITCH_PINS[i])` sample. -/
def checkOne (r : Fin 4 → Bool) (conn : Bool)
    (acc : DeviceState × Effects) (i : Fin 4) : DeviceState × Effects :=
  let st := acc.1
  let currentState := ! (r i)
  if currentState = st.manualOverride i then acc
  else
    let st1 : DeviceState := { st with manualOverride := Function.update st.manualOverride i currentState }
    if currentState then
      let newVal := ! st1.relayStates i
      let st2 : DeviceState :=
        { st1 with
          relayStates := Function.update st1.relayStates i newVal
          pins := Function.update st1.pins (RELAY_PINS i) (if newVal then HIGH else LOW) }
      let line : ArdString :=
        ("Manual switch " ++ toString (i.val + 1) ++ " pressed - Relay " ++
          (if newVal then "ON" else "OFF")).toList
      let eff := sendSwitchStateUpdate st2 i ++
        logActivity conn st2 i (if newVal then "on".toList else "off".toList) "manual".toList ++
        ⟨[], [], [line]⟩
      (st2, acc.2 ++ eff)
    else
      (st1, acc.2)

/-- Model of `checkManualSwitches` (main.cpp lines 239-259): the `for (int i = 0;
i < 4; i++)` loop, as a left fold over the four indices. -/
def checkManualSwitches (r : Fin 4 → Bool) (conn : Bool)
    (st : DeviceState) : DeviceState × Effects :=
  (List.finRange 4).foldl (checkOne r conn) (st, Effects.noEff)

/-- One iteration of the `for` loop in `readPIRSensor` that turns on the
PIR-linked switches (main.cpp lines 274-279). -/
def pirTurnOn (conn : Bool) (acc : DeviceState × Effects) (i : Fin 4) : DeviceState × Effects :=
  if PIR_LINKED_SWITCHES i ∧ acc.1.relayStates i = false then
    let r := toggleRelay i true conn acc.1
    (r.1, acc.2 ++ r.2 ++ sendSwitchStateUpdate r.1 i)
  else acc

/-- Model of `sendPIREvent` (main.cpp lines 306-316). -/
def sendPIREvent (st : DeviceState) (motion : Bool) : Effects :=
  ⟨[TxMsg.pirEvent st.deviceId motion], [], []⟩

/-- Model of `readPIRSensor` (main.cpp lines 261-291), at a poll where the time
guard has elapsed; `reading` is `digitalRead(PIR_SENSOR_PIN)`. -/
def readPIRSensor (reading conn : Bool) (st : DeviceState) : DeviceState × Effects :=
  if reading = st.pirState then (st, Effects.noEff)
  else
    let st1 : DeviceState := { st with pirState := reading }
    if reading then
      let out := (List.finRange 4).foldl (pirTurnOn conn) (st1, ⟨[], [], ["Motion detected!".toList]⟩)
      (out.1, out.2 ++ sendPIREvent out.1 true)
    else
      (st1, ⟨[], [], ["Motion stopped".toList]⟩ ++ sendPIREvent st1 false)

/-- Model of `isspace` from the C library, over the 8-bit characters the firmware
passes around (Arduino `String::toInt` calls `atol`, which skips leading
whitespace). -/
def isSpaceByte (c : Char) : Bool :=
  c = ' ' || c = '\t' || c = '\n' || c = Char.ofNat 11 || c = Char.ofNat 12 || c = '\r'

/-- The value of the maximal leading run of decimal digits (`atol`'s digit
loop). -/
def leadingDigitsVal (s : List Char) : Nat :=
  (s.takeWhile Char.isDigit).foldl (fun a c => a * 10 + (c.toNat - 48)) 0

/-- Arduino `String::toInt`, i.e. `atol` on the string's characters:
skip whitespace, read an optional sign, then the leading digits; `0` when
there are no digits. -/
def ardToInt (s : ArdString) : Int :=
  let s1 := s.dropWhile isSpaceByte
  match s1 with
  | '-' :: rest => - (leadingDigitsVal rest : Int)
  | '+' :: rest => (leadingDigitsVal rest : Int)
  | _ => (leadingDigitsVal s1 : Int)

/-- Model of `switchId.substring(2).toInt() - 1` (main.cpp line 212). -/
def parseSwitchIndex (switchId : ArdString) : Int :=
  ardToInt (switchId.drop 2) - 1

/-- A parsed inbound WebSocket text message: the fields
`handleWebSocketMessage` reads from the deserialized JSON document. -/
structure WsMsg where
  type : ArdString
  switchId : ArdString
  state : Bool
  url : ArdString

/-- Model of `handleWebSocketMessage` (main.cpp lines 203-227): a single dispatch
on the string value of the `type` field, with branches for
`switch_toggle`, `get_status` and `ota_update`; `performOTAUpdate` is a
placeholder that only prints a line. -/
def handleWebSocketMessage (m : WsMsg) (conn : Bool) (st : DeviceState) : DeviceState × Effects :=
  if m.type = "switch_toggle".toList then
    let switchIndex := parseSwitchIndex m.switchId
    if h : 0 ≤ switchIndex ∧ switchIndex < 4 then
      let i : Fin 4 := ⟨switchIndex.toNat, by omega⟩
      let r := toggleRelay i m.state conn st
      (r.1, r.2 ++ sendSwitchStateUpdate r.1 i)
    else (st, Effects.noEff)
  else if m.type = "get_status".toList then
    (st, ⟨[TxMsg.deviceStatus st.deviceId], [], []⟩)
  else if m.type = "ota_update".toList then
    (st, ⟨[], [], [("Starting OTA update from: ".toList ++ m.url)]⟩)
  else (st, Effects.noEff)

/-- The EEPROM contents after `EEPROM.begin(512)`: a function from byte
addresses to byte values (each byte modelled as a `Char`). -/
abbrev EEPROM := Nat → Char

/-- Model of `EEPROM.begin(512)` (main.cpp line 27). -/
def eepromSize : Nat := 512

/-- ESP32 `EEPROMClass::writeBytes`: a bounds-checked block write that
writes nothing when the block would run past the end of the region. -/
def eepromWriteBytes (rom : EEPROM) (addr : Nat) (data : List Char) : EEPROM :=
  if addr + data.length ≤ eepromSize then
    fun p => if addr ≤ p ∧ p < addr + data.length then data.getD (p - addr) (Char.ofNat 0) else rom p
  else rom

/-- ESP32 `EEPROMClass::writeString`: the string's bytes followed by a
terminating zero byte. -/
def eepromWriteString (rom : EEPROM) (addr : Nat) (s : ArdString) : EEPROM :=
  eepromWriteBytes rom addr (s ++ [Char.ofNat 0])

/-- The scanning loop of ESP32 `EEPROMClass::readString`: collect bytes
from `addr` until a zero byte, reading at most `fuel` bytes. -/
def readStringAux (rom : EEPROM) (addr : Nat) : Nat → List Char
  | 0 => []
  | fuel + 1 =>
    let b := rom addr
    if b = Char.ofNat 0 then [] else b :: readStringAux rom (addr + 1) fuel

/-- ESP32 `EEPROMClass::readString`: bytes from `addr` up to the first
zero byte, bounded by the region size. -/
def eepromReadString (rom : EEPROM) (addr : Nat) : ArdString :=
  readStringAux rom addr eepromSize

/-- Model of `saveConfiguration` (main.cpp lines 385-389): exactly two string
writes, `deviceId` at offset 0 and `authToken` at offset 64. -/
def saveConfiguration (deviceId authToken : ArdString) (rom : EEPROM) : EEPROM :=
  eepromWriteString (eepromWriteString rom 0 deviceId) 64 authToken

/-- Model of `deviceId.replace(":", "")` (main.cpp line 397). -/
def stripColons (s : ArdString) : ArdString := s.filter (fun c => c != ':')

/-- Model of `loadConfiguration` (main.cpp lines 391-399): read the two strings
back; when the stored `deviceId` is empty, derive it from the WiFi MAC
address with the colons removed.  Returns the resulting
`(deviceId, authToken)` pair; `mac` is `WiFi.macAddress()`. -/
def loadConfiguration (rom : EEPROM) (mac : ArdString) : ArdString × ArdString :=
  let d := eepromReadString rom 0
  let t := eepromReadString rom 64
  (if d.length = 0 then stripColons mac else d, t)

/-- Model of `registerDevice` (main.cpp lines 96-162): return immediately when WiFi
is disconnected; otherwise POST the registration document and, on HTTP
200 or 201, overwrite `deviceId`/`authToken` with the server-assigned
values and persist them with `saveConfiguration`.  `code` is the HTTP
response code and `respId`/`respTok` the parsed response fields. -/
def registerDevice (conn : Bool) (code : Int) (respId respTok : ArdString)
    (st : DeviceState) (rom : EEPROM) : DeviceState × EEPROM × Effects :=
  if conn then
    if code = 200 ∨ code = 201 then
      let st1 : DeviceState := { st with deviceId := respId, authToken := respTok }
      let rom1 := saveConfiguration st1.deviceId st1.authToken rom
      (st1, rom1,
        ⟨[], [PostMsg.register], ["Device registered successfully!".toList]⟩)
    else
      (st, rom, ⟨[], [PostMsg.register], ["Device registration failed!".toList]⟩)
  else (st, rom, Effects.noEff)

/-- The configuration part of `setup` (main.cpp lines 40-46):
`loadConfiguration()` followed by `registerDevice()` (the intervening
`connectWiFi()` either leaves WiFi connected or restarts the board, and
touches none of these variables). -/
def setupConfigFlow (rom : EEPROM) (mac : ArdString) (conn : Bool) (code : Int)
    (respId respTok : ArdString) (st : DeviceState) : DeviceState × EEPROM × Effects :=
  let cfg := loadConfiguration rom mac
  let st1 : DeviceState := { st with deviceId := cfg.1, authToken := cfg.2 }
  registerDevice conn code respId respTok st1 rom

/-- The index of the `WiFi.status()` call at which the wait loop of
`connectWiFi` (main.cpp lines 77-81) exits: starting from call index `c`
with `rem` loop iterations still allowed, the loop polls until the status
reads connected or the iteration budget is exhausted.  `status k` is the
value of the `k`-th `WiFi.status()` call. -/
def connectExitAux (status : Nat → Bool) (c : Nat) : Nat → Nat
  | 0 => c
  | rem + 1 => if status c then c else connectExitAux status (c + 1) rem

/-- The outcome of `connectWiFi`. -/
inductive ConnectOutcome where
  | connected
  | restart
deriving DecidableEq

/-- Model of `connectWiFi` (main.cpp lines 72-94): poll `WiFi.status()` for at most
20 iterations, then re-check the status once more; print and return when
connected, otherwise `ESP.restart()`. -/
def connectWiFi (status : Nat → Bool) : ConnectOutcome :=
  let e := connectExitAux status 0 20
  if status (e + 1) then ConnectOutcome.connected else ConnectOutcome.restart

/-- Model of `FW_PROTOCOL_VERSION` from firmware_common.h. -/
def FW_PROTOCOL_VERSION : Nat := 1

/-- Model of `fwInjectProtocolVersion` (firmware_common.h lines 48-55): when the
string ends with a closing brace, drop that brace, append a comma when the
remaining text contains a colon, then append the `protocol_version` field
and a new closing brace; otherwise leave the string unchanged. -/
def fwInjectProtocolVersion (json : ArdString) : ArdString :=
  if json.getLast? = some '}' then
    let body := json.dropLast
    let body1 := if body.contains ':' then body ++ [','] else body
    body1 ++ ("\"protocol_version\":" ++ toString FW_PROTOCOL_VERSION).toList ++ ['}']
  else json

/-- The pin/boolean mirror invariant: the last level written to each relay
pin is `HIGH` exactly when the corresponding `relayStates` entry is true. -/
def PinMirror (st : DeviceState) : Prop :=
  ∀ i : Fin 4, st.pins (RELAY_PINS i) = (if st.relayStates i then HIGH else LOW)

/-- The states the firmware can reach: any state produced by the
pin-initialization part of `setup` (all relays off, `LOW` written to every
relay pin) followed by any interleaving of the operations that run
afterwards.  `registerDevice` is included with its inputs quantified; the
remaining procedures (`loadConfiguration`, the send helpers,
`sendHeartbeat`, `sendDeviceStatus`) write no global the invariant
mentions. -/
inductive Reachable : DeviceState → Prop
  | init (st : DeviceState)
      (hrelays : ∀ i : Fin 4, st.relayStates i = false)
      (hpins : ∀ i : Fin 4, st.pins (RELAY_PINS i) = LOW) : Reachable st
  | toggle (st : DeviceState) (h : Reachable st) (i : Fin 4) (s conn : Bool) :
      Reachable (toggleRelay i s conn st).1
  | manual (st : DeviceState) (h : Reachable st) (r : Fin 4 → Bool) (conn : Bool) :
      Reachable (checkManualSwitches r conn st).1
  | ws (st : DeviceState) (h : Reachable st) (m : WsMsg) (conn : Bool) :
      Reachable (handleWebSocketMessage m conn st).1
  | pir (st : DeviceState) (h : Reachable st) (reading conn : Bool) :
      Reachable (readPIRSensor reading conn st).1
  | register (st : DeviceState) (h : Reachable st) (conn : Bool) (code : Int)
      (respId respTok : ArdString) (rom : EEPROM) :
      Reachable (registerDevice conn code respId respTok st rom).1

/-- A message type string is dispatched when some message carrying it can
make `handleWebSocketMessage` change the state or produce an effect. -/
def wsHandles (t : ArdString) : Prop :=
  ∃ (m : WsMsg) (conn : Bool) (st : DeviceState),
    m.type = t ∧ handleWebSocketMessage m conn st ≠ (st, Effects.noEff)

/-- A concrete device state used to instantiate general theorems. -/
def st0 : DeviceState := ⟨[], [], fun _ => false, fun _ => false, false, fun _ => false⟩

/-- A concrete all-zero EEPROM image. -/
def romZero : EEPROM := fun _ => Char.ofNat 0

/-- A concrete `switch_toggle` message whose switch id is out of range. -/
def wsMsgSw5 : WsMsg := ⟨"switch_toggle".toList, "sw5".toList, true, []⟩

/-- A concrete message whose type matches no dispatch branch. -/
def wsMsgBogus : WsMsg := ⟨"bogus".toList, [], false, []⟩

/-- A concrete in-range `switch_toggle` message. -/
def wsMsgSw1 : WsMsg := ⟨"switch_toggle".toList, "sw1".toList, true, []⟩

/-- A concrete `get_status` message. -/
def wsMsgStatus : WsMsg := ⟨"get_status".toList, [], false, []⟩

/-- A concrete `ota_update` message. -/
def wsMsgOta : WsMsg := ⟨"ota_update".toList, [], false, "http://u".toList⟩

/-! ## Theorems -/

/-- The resulting state of `toggleRelay`, spelled out. -/
lemma toggleRelay_fst (i : Fin 4) (s conn : Bool) (st : DeviceState) :
    (toggleRelay i s conn st).1 =
      { st with
        relayStates := Function.update st.relayStates i s
        pins := Function.update st.pins (RELAY_PINS i) (if s then HIGH else LOW) } := rfl

/-- C1: for every relay index `i` and boolean `s`, `toggleRelay(i, s)` sets
`relayStates[i]` to `s`, writes `HIGH` to `RELAY_PINS[i]` when `s` is true
and `LOW` when it is false, and leaves `relayStates[j]` unchanged for every
`j ≠ i`. -/
theorem c1_toggleRelay_correct (i : Fin 4) (s conn : Bool) (st : DeviceState) :
    (toggleRelay i s conn st).1.relayStates i = s ∧
    (toggleRelay i s conn st).1.pins (RELAY_PINS i) = (if s then HIGH else LOW) ∧
    ∀ j : Fin 4, j ≠ i → (toggleRelay i s conn st).1.relayStates j = st.relayStates j := by
  refine ⟨?_, ?_, ?_⟩
  · rw [toggleRelay_fst]; exact Function.update_same i s st.relayStates
  · rw [toggleRelay_fst]; exact Function.update_same _ _ st.pins
  · intro j hj; rw [toggleRelay_fst]; exact Function.update_noteq hj s st.relayStates

/-- Witness for C1 at `i = 0`, `s = true`, `j = 1`. -/
theorem c1_witness :
    ((1 : Fin 4) ≠ 0) ∧
    (toggleRelay 0 true false st0).1.relayStates 0 = true ∧
    (toggleRelay 0 true false st0).1.relayStates 1 = st0.relayStates 1 :=
  ⟨by decide, (c1_toggleRelay_correct 0 true false st0).1,
    (c1_toggleRelay_correct 0 true false st0).2.2 1 (by decide)⟩

/-- C6: when WiFi is disconnected, `registerDevice` and `logActivity`
return immediately: no HTTP POST (and no send, no print) is performed, and
neither the in-memory globals nor the EEPROM change. -/
theorem c6_offline_skip (st : DeviceState) (rom : EEPROM) (code : Int)
    (respId respTok : ArdString) (i : Fin 4) (action trig : ArdString) :
    registerDevice false code respId respTok st rom = (st, rom, Effects.noEff) ∧
    logActivity false st i action trig = Effects.noEff := by
  exact ⟨rfl, rfl⟩

/-- The wait loop of `connectWiFi` advances the poll index by at most the
remaining iteration budget. -/
lemma connectExitAux_le (status : Nat → Bool) (rem : Nat) :
    ∀ c, connectExitAux status c rem ≤ c + rem := by
  induction rem with
  | zero => intro c; simp [connectExitAux]
  | succ r ih =>
    intro c
    unfold connectExitAux
    split
    · omega
    · have := ih (c + 1); omega

/-- C8: the connection-wait loop of `connectWiFi` executes at most 20
iterations, and when the status check after the loop still reads
disconnected, `connectWiFi` restarts the device instead of returning in a
disconnected state. -/
theorem c8_connectWiFi_bounded (status : Nat → Bool) :
    connectExitAux status 0 20 ≤ 20 ∧
    (status (connectExitAux status 0 20 + 1) = false →
      connectWiFi status = ConnectOutcome.restart) := by
  constructor
  · simpa using connectExitAux_le status 20 0
  · intro h
    simp [connectWiFi, h]

/-- Witness for C8 with a status that never connects. -/
theorem c8_witness :
    ((fun _ => false : Nat → Bool) (connectExitAux (fun _ => false) 0 20 + 1) = false) ∧
    connectWiFi (fun _ => false) = ConnectOutcome.restart :=
  ⟨rfl, (c8_connectWiFi_bounded (fun _ => false)).2 rfl⟩

/-- C9: a `switch_toggle` message whose switch id parses to an index
outside `0..3` leaves the state untouched and produces no effect at all:
no relay toggle, no pin write, no confirmation message. -/
theorem c9_out_of_range_noop (m : WsMsg) (conn : Bool) (st : DeviceState)
    (hty : m.type = "switch_toggle".toList)
    (hidx : ¬ (0 ≤ parseSwitchIndex m.switchId ∧ parseSwitchIndex m.switchId < 4)) :
    handleWebSocketMessage m conn st = (st, Effects.noEff) := by
  unfold handleWebSocketMessage
  rw [if_pos hty, dif_neg hidx]

/-- Witness for C9 at the concrete message `switchId = "sw5"`. -/
theorem c9_witness :
    (wsMsgSw5.type = "switch_toggle".toList) ∧
    (¬ (0 ≤ parseSwitchIndex wsMsgSw5.switchId ∧ parseSwitchIndex wsMsgSw5.switchId < 4)) ∧
    handleWebSocketMessage wsMsgSw5 false st0 = (st0, Effects.noEff) :=
  ⟨by decide, by decide, c9_out_of_range_noop wsMsgSw5 false st0 (by decide) (by decide)⟩

/-- Splitting a list at its last element. -/
lemma exists_concat_of_getLast? (l : List Char) (a : Char) (h : l.getLast? = some a) :
    ∃ ys, l = ys ++ [a] := by
  have hne : l ≠ [] := by rintro rfl; simp at h
  refine ⟨l.dropLast, ?_⟩
  have hlast : l.getLast hne = a := by
    have hg := List.getLast?_eq_getLast l hne
    rw [hg] at h
    exact Option.some.inj h
  rw [← hlast]
  exact (List.dropLast_append_getLast hne).symm

/-- C10: `fwInjectProtocolVersion` is total and conditional on shape: a
string not ending in a closing brace is returned unchanged; a string
ending in a closing brace loses that brace and gains the
`protocol_version` field followed by a closing brace, preceded by a comma
exactly when the original string contains a colon. -/
theorem c10_fwInjectProtocolVersion_spec (json : ArdString) :
    fwInjectProtocolVersion json =
      (if json.getLast? = some '}' then
        json.dropLast ++ (if json.contains ':' then [','] else []) ++
          ("\"protocol_version\":1".toList ++ ['}'])
      else json) := by
  unfold fwInjectProtocolVersion
  by_cases h : json.getLast? = some '}'
  · rw [if_pos h, if_pos h]
    obtain ⟨ys, rfl⟩ := exists_concat_of_getLast? json '}' h
    rw [List.dropLast_concat]
    by_cases hc : ':' ∈ ys <;>
      simp [hc, show (toString FW_PROTOCOL_VERSION).data = ['1'] from rfl]
  · rw [if_neg h, if_neg h]

/-- Pointwise value of a bounds-respecting block write. -/
lemma eepromWriteBytes_apply (rom : EEPROM) (addr : Nat) (data : List Char) (p : Nat)
    (hin : addr + data.length ≤ eepromSize) :
    eepromWriteBytes rom addr data p =
      (if addr ≤ p ∧ p < addr + data.length then data.getD (p - addr) (Char.ofNat 0)
       else rom p) := by
  unfold eepromWriteBytes
  rw [if_pos hin]

/-- The scanning loop of `readString` recovers a zero-free byte block that
is followed in memory by a zero byte. -/
lemma readStringAux_spec (l : List Char) :
    ∀ (rom : EEPROM) (addr fuel : Nat),
      (∀ k, k < l.length → rom (addr + k) = l.getD k (Char.ofNat 0)) →
      (∀ c ∈ l, c ≠ Char.ofNat 0) →
      rom (addr + l.length) = Char.ofNat 0 →
      l.length < fuel →
      readStringAux rom addr fuel = l := by
  induction l with
  | nil =>
    intro rom addr fuel _ _ hend hf
    obtain ⟨f, rfl⟩ : ∃ f, fuel = f + 1 := ⟨fuel - 1, by omega⟩
    simp only [readStringAux]
    rw [if_pos (by simpa using hend)]
  | cons c tl ih =>
    intro rom addr fuel hvals hnz hend hf
    obtain ⟨f, rfl⟩ : ∃ f, fuel = f + 1 := ⟨fuel - 1, by omega⟩
    have h0 : rom addr = c := by simpa using hvals 0 (by simp)
    simp only [readStringAux]
    rw [if_neg (by rw [h0]; exact hnz c (List.mem_cons_self c tl)), h0]
    congr 1
    apply ih rom (addr + 1) f
    · intro k hk
      have hv := hvals (k + 1) (by simpa using Nat.succ_lt_succ hk)
      have harith : addr + (k + 1) = addr + 1 + k := by omega
      rw [harith] at hv
      simpa using hv
    · intro x hx
      exact hnz x (List.mem_cons_of_mem c hx)
    · have harith : addr + (c :: tl).length = addr + 1 + tl.length := by simp; omega
      rw [harith] at hend
      exact hend
    · simpa using Nat.lt_of_succ_lt_succ hf

/-- C3 (amended): for every nonempty deviceId shorter than 64 bytes whose
bytes are all nonzero and every authToken fitting the 512-byte region
whose bytes are all nonzero, `saveConfiguration` followed by
`loadConfiguration` restores both strings exactly. -/
theorem c3_save_load_roundtrip (rom : EEPROM) (d t mac : ArdString)
    (hd0 : d ≠ []) (hdlen : d.length < 64) (hdz : ∀ c ∈ d, c ≠ Char.ofNat 0)
    (htlen : 64 + (t.length + 1) ≤ 512) (htz : ∀ c ∈ t, c ≠ Char.ofNat 0) :
    loadConfiguration (saveConfiguration d t rom) mac = (d, t) := by
  have hd1 : (0 : Nat) + (d ++ [Char.ofNat 0]).length ≤ eepromSize := by
    simp only [List.length_append, List.length_singleton, eepromSize]
    omega
  have ht1 : 64 + (t ++ [Char.ofNat 0]).length ≤ eepromSize := by
    simp only [List.length_append, List.length_singleton, eepromSize]
    omega
  set rom1 := eepromWriteString rom 0 d with hrom1
  set rom2 := eepromWriteString rom1 64 t with hrom2
  have hgoal : loadConfiguration (saveConfiguration d t rom) mac = loadConfiguration rom2 mac := rfl
  have hlow : ∀ p, p < 64 → rom2 p = rom1 p := by
    intro p hp
    rw [hrom2]
    unfold eepromWriteString
    rw [eepromWriteBytes_apply _ _ _ _ ht1, if_neg (by omega)]
  have hromd : ∀ p, p ≤ d.length → rom1 p = (d ++ [Char.ofNat 0]).getD p (Char.ofNat 0) := by
    intro p hp
    rw [hrom1]
    unfold eepromWriteString
    rw [eepromWriteBytes_apply _ _ _ _ hd1,
      if_pos (by constructor; omega; simp only [List.length_append, List.length_singleton]; omega)]
    simp
  have hromt : ∀ p, p ≤ t.length → rom2 (64 + p) = (t ++ [Char.ofNat 0]).getD p (Char.ofNat 0) := by
    intro p hp
    rw [hrom2]
    unfold eepromWriteString
    rw [eepromWriteBytes_apply _ _ _ _ ht1,
      if_pos (by constructor; omega; simp only [List.length_append, List.length_singleton]; omega)]
    simp
  have hread0 : eepromReadString rom2 0 = d := by
    apply readStringAux_spec d rom2 0 eepromSize
    · intro k hk
      rw [Nat.zero_add, hlow k (by omega), hromd k (le_of_lt hk)]
      simp [List.getD, List.getElem?_append_left hk]
    · exact hdz
    · rw [Nat.zero_add, hlow d.length (by omega), hromd d.length (le_refl _)]
      simp [List.getD, List.getElem?_append_right (le_refl d.length)]
    · simp only [eepromSize]; omega
  have hread64 : eepromReadString rom2 64 = t := by
    apply readStringAux_spec t rom2 64 eepromSize
    · intro k hk
      rw [hromt k (le_of_lt hk)]
      simp [List.getD, List.getElem?_append_left hk]
    · exact htz
    · rw [hromt t.length (le_refl _)]
      simp [List.getD, List.getElem?_append_right (le_refl t.length)]
    · simp only [eepromSize]; omega
  rw [hgoal]
  simp only [loadConfiguration, hread0, hread64]
  rw [if_neg (by simpa using hd0)]

/-- Witness for C3 at concrete strings over an all-zero EEPROM. -/
theorem c3_witness :
    (("dev1".toList : ArdString) ≠ []) ∧ ("dev1".toList.length < 64) ∧
    (∀ c ∈ "dev1".toList, c ≠ Char.ofNat 0) ∧
    (64 + ("tok".toList.length + 1) ≤ 512) ∧ (∀ c ∈ "tok".toList, c ≠ Char.ofNat 0) ∧
    loadConfiguration (saveConfiguration "dev1".toList "tok".toList romZero) "M".toList =
      ("dev1".toList, "tok".toList) :=
  ⟨by decide, by decide, by decide, by decide, by decide,
    c3_save_load_roundtrip romZero "dev1".toList "tok".toList "M".toList
      (by decide) (by decide) (by decide) (by decide) (by decide)⟩

/-- C3 counterexample: the round trip as claimed fails for the empty
deviceId (the load-time MAC fallback replaces it) and for a deviceId
containing an interior zero byte (the read stops at that byte). -/
theorem c3_counterexample :
    (loadConfiguration (saveConfiguration [] "tok".toList romZero) "AA:BB".toList ≠
      (([] : ArdString), "tok".toList)) ∧
    (loadConfiguration (saveConfiguration ['a', Char.ofNat 0, 'b'] "tok".toList romZero)
        "AA:BB".toList ≠
      ((['a', Char.ofNat 0, 'b'] : ArdString), "tok".toList)) := by
  constructor <;> decide

/-- A loop iteration of `checkManualSwitches` for index `j` leaves the
relay and override entries of every other index `i` untouched. -/
lemma checkOne_fst_other (r : Fin 4 → Bool) (conn : Bool) (acc : DeviceState × Effects)
    (j i : Fin 4) (hij : i ≠ j) :
    (checkOne r conn acc j).1.relayStates i = acc.1.relayStates i ∧
    (checkOne r conn acc j).1.manualOverride i = acc.1.manualOverride i := by
  simp only [checkOne]
  split
  · exact ⟨rfl, rfl⟩
  · split
    · constructor <;> simp [Function.update_noteq hij]
    · constructor <;> simp [Function.update_noteq hij]

/-- A loop iteration of `checkManualSwitches` for index `i`: the override
flag always ends up equal to the inverted sample, and the relay flips
exactly when the sample differs from the stored flag and reads pressed. -/
lemma checkOne_fst_self (r : Fin 4 → Bool) (conn : Bool) (acc : DeviceState × Effects)
    (i : Fin 4) :
    (checkOne r conn acc i).1.manualOverride i = ! r i ∧
    (checkOne r conn acc i).1.relayStates i =
      (if (! r i) = acc.1.manualOverride i then acc.1.relayStates i
       else if (! r i) = true then ! acc.1.relayStates i else acc.1.relayStates i) := by
  simp only [checkOne]
  by_cases h : (! r i) = acc.1.manualOverride i
  · simp [h]
  · rcases Bool.dichotomy (! r i) with hc | hc
    · have hmo : acc.1.manualOverride i = true := by
        rcases Bool.dichotomy (acc.1.manualOverride i) with h2 | h2
        · exact absurd (hc.trans h2.symm) h
        · exact h2
      simp [hc, hmo, Function.update_same]
    · have hmo : acc.1.manualOverride i = false := by
        rcases Bool.dichotomy (acc.1.manualOverride i) with h2 | h2
        · exact h2
        · exact absurd (hc.trans h2.symm) h
      simp [hc, hmo, Function.update_same]

/-- Exhaustive case split on an index into the four switches. -/
lemma fin4_cases (i : Fin 4) : i = 0 ∨ i = 1 ∨ i = 2 ∨ i = 3 := by
  fin_cases i <;> decide

/-- The four-iteration loop of `checkManualSwitches`, unrolled. -/
lemma checkMS_unfold (r : Fin 4 → Bool) (conn : Bool) (st : DeviceState) :
    checkManualSwitches r conn st =
      checkOne r conn (checkOne r conn (checkOne r conn
        (checkOne r conn (st, Effects.noEff) 0) 1) 2) 3 := by
  unfold checkManualSwitches
  rw [show (List.finRange 4 : List (Fin 4)) = [0, 1, 2, 3] from by decide]
  rfl

/-- After a poll, every override flag equals the inverted sample. -/
lemma checkMS_override (r : Fin 4 → Bool) (conn : Bool) (st : DeviceState) (i : Fin 4) :
    (checkManualSwitches r conn st).1.manualOverride i = ! r i := by
  rw [checkMS_unfold]
  rcases fin4_cases i with rfl | rfl | rfl | rfl
  · rw [(checkOne_fst_other r conn _ 3 0 (by decide)).2,
      (checkOne_fst_other r conn _ 2 0 (by decide)).2,
      (checkOne_fst_other r conn _ 1 0 (by decide)).2,
      (checkOne_fst_self r conn _ 0).1]
  · rw [(checkOne_fst_other r conn _ 3 1 (by decide)).2,
      (checkOne_fst_other r conn _ 2 1 (by decide)).2,
      (checkOne_fst_self r conn _ 1).1]
  · rw [(checkOne_fst_other r conn _ 3 2 (by decide)).2,
      (checkOne_fst_self r conn _ 2).1]
  · rw [(checkOne_fst_self r conn _ 3).1]

/-- After a poll, the relay entry flips exactly when the inverted sample
differs from the stored override flag and reads pressed. -/
lemma checkMS_relay (r : Fin 4 → Bool) (conn : Bool) (st : DeviceState) (i : Fin 4) :
    (checkManualSwitches r conn st).1.relayStates i =
      (if (! r i) = st.manualOverride i then st.relayStates i
       else if (! r i) = true then ! st.relayStates i else st.relayStates i) := by
  rw [checkMS_unfold]
  rcases fin4_cases i with rfl | rfl | rfl | rfl
  · rw [(checkOne_fst_other r conn _ 3 0 (by decide)).1,
      (checkOne_fst_other r conn _ 2 0 (by decide)).1,
      (checkOne_fst_other r conn _ 1 0 (by decide)).1,
      (checkOne_fst_self r conn _ 0).2]
  · rw [(checkOne_fst_other r conn _ 3 1 (by decide)).1,
      (checkOne_fst_other r conn _ 2 1 (by decide)).1,
      (checkOne_fst_self r conn _ 1).2,
      (checkOne_fst_other r conn _ 0 1 (by decide)).1,
      (checkOne_fst_other r conn _ 0 1 (by decide)).2]
  · rw [(checkOne_fst_other r conn _ 3 2 (by decide)).1,
      (checkOne_fst_self r conn _ 2).2,
      (checkOne_fst_other r conn _ 1 2 (by decide)).1,
      (checkOne_fst_other r conn _ 1 2 (by decide)).2,
      (checkOne_fst_other r conn _ 0 2 (by decide)).1,
      (checkOne_fst_other r conn _ 0 2 (by decide)).2]
  · rw [(checkOne_fst_self r conn _ 3).2,
      (checkOne_fst_other r conn _ 2 3 (by decide)).1,
      (checkOne_fst_other r conn _ 2 3 (by decide)).2,
      (checkOne_fst_other r conn _ 1 3 (by decide)).1,
      (checkOne_fst_other r conn _ 1 3 (by decide)).2,
      (checkOne_fst_other r conn _ 0 3 (by decide)).1,
      (checkOne_fst_other r conn _ 0 3 (by decide)).2]

/-- A loop iteration whose sample already equals the stored flag does
nothing. -/
lemma checkOne_id_of_sync (r : Fin 4 → Bool) (conn : Bool) (acc : DeviceState × Effects)
    (i : Fin 4) (h : acc.1.manualOverride i = ! r i) :
    checkOne r conn acc i = acc := by
  simp only [checkOne]
  rw [if_pos h.symm]

/-- A poll in which every override flag already equals the inverted
sample does nothing. -/
lemma checkMS_id_of_sync (r : Fin 4 → Bool) (conn : Bool) (s : DeviceState)
    (h : ∀ i, s.manualOverride i = ! r i) :
    checkManualSwitches r conn s = (s, Effects.noEff) := by
  rw [checkMS_unfold,
    checkOne_id_of_sync r conn _ 0 (h 0),
    checkOne_id_of_sync r conn _ 1 (h 1),
    checkOne_id_of_sync r conn _ 2 (h 2),
    checkOne_id_of_sync r conn _ 3 (h 3)]

/-- Polling twice with the same samples equals polling once. -/
lemma checkMS_step_idem (r : Fin 4 → Bool) (conn : Bool) (st : DeviceState) :
    (checkManualSwitches r conn (checkManualSwitches r conn st).1).1 =
      (checkManualSwitches r conn st).1 := by
  rw [checkMS_id_of_sync r conn _ (fun i => checkMS_override r conn st i)]

/-- Polling `n + 1` times with the same samples equals polling once. -/
lemma checkMS_iterate (r : Fin 4 → Bool) (conn : Bool) (st : DeviceState) (n : Nat) :
    (fun s => (checkManualSwitches r conn s).1)^[n + 1] st =
      (fun s => (checkManualSwitches r conn s).1) st := by
  induction n with
  | zero => rfl
  | succ m ih =>
    rw [Function.iterate_succ_apply', ih]
    exact checkMS_step_idem r conn st

/-- C7: manual-switch handling is edge-triggered by polling.  A poll sets
`manualOverride[i]` to the inverted sample, flips `relayStates[i]` exactly
when the inverted sample differs from the stored `manualOverride[i]` and
reads pressed (so a release poll updates the flag but leaves the relay
alone), and holding the switch across any number of consecutive polls
toggles the relay exactly once. -/
theorem c7_manual_switch_edge_trigger (r : Fin 4 → Bool) (conn : Bool) (st : DeviceState)
    (i : Fin 4) (n : Nat) :
    (checkManualSwitches r conn st).1.manualOverride i = ! r i ∧
    (checkManualSwitches r conn st).1.relayStates i =
      (if (! r i) = st.manualOverride i then st.relayStates i
       else if (! r i) = true then ! st.relayStates i else st.relayStates i) ∧
    (fun s => (checkManualSwitches r conn s).1)^[n + 1] st =
      (fun s => (checkManualSwitches r conn s).1) st :=
  ⟨checkMS_override r conn st i, checkMS_relay r conn st i, checkMS_iterate r conn st n⟩

/-- The four relay pins are pairwise distinct. -/
lemma relayPins_injective : ∀ i j : Fin 4, RELAY_PINS i = RELAY_PINS j → i = j := by decide

/-- Preservation: `toggleRelay` keeps the pin/boolean mirror: it writes the pin and
the boolean in the same step. -/
lemma toggleRelay_mirror (i : Fin 4) (s conn : Bool) (st : DeviceState)
    (h : PinMirror st) : PinMirror (toggleRelay i s conn st).1 := by
  intro j
  rw [toggleRelay_fst]
  by_cases hji : j = i
  · subst hji
    simp [Function.update_same]
  · have hp : RELAY_PINS j ≠ RELAY_PINS i := fun hc => hji (relayPins_injective j i hc)
    simp only [Function.update_noteq hji, Function.update_noteq hp]
    exact h j

/-- Each loop iteration of `checkManualSwitches` preserves the mirror. -/
lemma checkOne_mirror (r : Fin 4 → Bool) (conn : Bool) (acc : DeviceState × Effects)
    (i : Fin 4) (h : PinMirror acc.1) : PinMirror (checkOne r conn acc i).1 := by
  simp only [checkOne]
  split
  · exact h
  · split
    · intro j
      by_cases hji : j = i
      · subst hji
        simp [Function.update_same]
      · have hp : RELAY_PINS j ≠ RELAY_PINS i := fun hc => hji (relayPins_injective j i hc)
        simp only [Function.update_noteq hji, Function.update_noteq hp]
        exact h j
    · exact h

/-- Folding `checkOne` over any index list preserves the mirror. -/
lemma foldl_checkOne_mirror (r : Fin 4 → Bool) (conn : Bool) :
    ∀ (L : List (Fin 4)) (acc : DeviceState × Effects), PinMirror acc.1 →
      PinMirror ((L.foldl (checkOne r conn) acc).1) := by
  intro L
  induction L with
  | nil => exact fun acc h => h
  | cons a L ih => exact fun acc h => ih _ (checkOne_mirror r conn acc a h)

/-- Each PIR-linked turn-on step preserves the mirror. -/
lemma pirTurnOn_mirror (conn : Bool) (acc : DeviceState × Effects) (i : Fin 4)
    (h : PinMirror acc.1) : PinMirror (pirTurnOn conn acc i).1 := by
  simp only [pirTurnOn]
  split
  · exact toggleRelay_mirror i true conn acc.1 h
  · exact h

/-- Folding the PIR turn-on step over any index list preserves the
mirror. -/
lemma foldl_pirTurnOn_mirror (conn : Bool) :
    ∀ (L : List (Fin 4)) (acc : DeviceState × Effects), PinMirror acc.1 →
      PinMirror ((L.foldl (pirTurnOn conn) acc).1) := by
  intro L
  induction L with
  | nil => exact fun acc h => h
  | cons a L ih => exact fun acc h => ih _ (pirTurnOn_mirror conn acc a h)

/-- Preservation: `readPIRSensor` keeps the mirror. -/
lemma readPIR_mirror (reading conn : Bool) (st : DeviceState)
    (h : PinMirror st) : PinMirror (readPIRSensor reading conn st).1 := by
  simp only [readPIRSensor]
  split
  · exact h
  · split
    · exact foldl_pirTurnOn_mirror conn (List.finRange 4) _ h
    · exact h

/-- Preservation: `handleWebSocketMessage` keeps the mirror. -/
lemma ws_mirror (m : WsMsg) (conn : Bool) (st : DeviceState)
    (h : PinMirror st) : PinMirror (handleWebSocketMessage m conn st).1 := by
  simp only [handleWebSocketMessage]
  split
  · split
    · exact toggleRelay_mirror _ _ conn st h
    · exact h
  · split
    · exact h
    · split
      · exact h
      · exact h

/-- Preservation: `registerDevice` touches only `deviceId`/`authToken` and the EEPROM,
so it preserves the mirror. -/
lemma register_mirror (conn : Bool) (code : Int) (respId respTok : ArdString)
    (st : DeviceState) (rom : EEPROM) (h : PinMirror st) :
    PinMirror (registerDevice conn code respId respTok st rom).1 := by
  simp only [registerDevice]
  split
  · split
    · exact fun j => h j
    · exact h
  · exact h

/-- C2: in every reachable state, the last level written to each
`RELAY_PINS[i]` is `HIGH` exactly when `relayStates[i]` is true: setup
writes `LOW` with all relays false, and every later operation that
changes a relay boolean writes the matching level in the same step. -/
theorem c2_pin_mirrors_relay (st : DeviceState) (h : Reachable st) : PinMirror st := by
  induction h with
  | init s hr hp =>
    intro i
    rw [hp i, hr i]
    rfl
  | toggle s hs i sb conn ih => exact toggleRelay_mirror i sb conn s ih
  | manual s hs r conn ih => exact foldl_checkOne_mirror r conn (List.finRange 4) _ ih
  | ws s hs m conn ih => exact ws_mirror m conn s ih
  | pir s hs reading conn ih => exact readPIR_mirror reading conn s ih
  | register s hs conn code respId respTok rom ih =>
    exact register_mirror conn code respId respTok s rom ih

/-- Witness for C2 at a concrete reachable state: the initial state
followed by one remote toggle. -/
theorem c2_witness : PinMirror (toggleRelay 0 true false st0).1 :=
  c2_pin_mirrors_relay _
    (Reachable.toggle st0 (Reachable.init st0 (fun _ => rfl) (fun _ => rfl)) 0 true false)

/-- Only the three matched type strings can make the dispatch act. -/
lemma wsHandles_mem (t : ArdString) (h : wsHandles t) :
    t = "switch_toggle".toList ∨ t = "get_status".toList ∨ t = "ota_update".toList := by
  obtain ⟨m, conn, st, hty, hne⟩ := h
  subst hty
  by_contra hcon
  push_neg at hcon
  obtain ⟨h1, h2, h3⟩ := hcon
  apply hne
  unfold handleWebSocketMessage
  rw [if_neg h1, if_neg h2, if_neg h3]

/-- C5 counterexample: the dispatch of `handleWebSocketMessage` cannot
cover four message types; there is no list of four pairwise-distinct type
strings all of which are dispatched. -/
theorem c5_counterexample :
    ¬ ∃ l : List ArdString, l.length = 4 ∧ l.Nodup ∧ ∀ t ∈ l, wsHandles t := by
  rintro ⟨l, hlen, hnd, hcov⟩
  have hsub : l ⊆ ["switch_toggle".toList, "get_status".toList, "ota_update".toList] := by
    intro t ht
    rcases wsHandles_mem t (hcov t ht) with h | h | h <;> simp [h]
  have hle : l.length ≤ 3 := by simpa using (hnd.subperm hsub).length_le
  omega

/-- C5 (amended): inbound WebSocket text messages are handled by a single
dispatch on the string value of the `type` field covering exactly three
message types (`switch_toggle`, `get_status`, `ota_update`); for every
message whose type matches none of them, `handleWebSocketMessage` changes
no state and produces no effect. -/
theorem c5_amended_three_types :
    wsHandles "switch_toggle".toList ∧
    wsHandles "get_status".toList ∧
    wsHandles "ota_update".toList ∧
    (∀ t, wsHandles t →
      t = "switch_toggle".toList ∨ t = "get_status".toList ∨ t = "ota_update".toList) ∧
    (∀ (m : WsMsg) (conn : Bool) (st : DeviceState),
      m.type ≠ "switch_toggle".toList → m.type ≠ "get_status".toList →
      m.type ≠ "ota_update".toList →
      handleWebSocketMessage m conn st = (st, Effects.noEff)) := by
  refine ⟨⟨wsMsgSw1, false, st0, rfl, fun h => absurd (congrArg Prod.snd h) (by decide)⟩,
    ⟨wsMsgStatus, false, st0, rfl, fun h => absurd (congrArg Prod.snd h) (by decide)⟩,
    ⟨wsMsgOta, false, st0, rfl, fun h => absurd (congrArg Prod.snd h) (by decide)⟩,
    wsHandles_mem, ?_⟩
  intro m conn st h1 h2 h3
  unfold handleWebSocketMessage
  rw [if_neg h1, if_neg h2, if_neg h3]

/-- Witness for the unmatched-type part of the amended C5 at a concrete
message. -/
theorem c5_witness :
    (wsMsgBogus.type ≠ "switch_toggle".toList) ∧
    (wsMsgBogus.type ≠ "get_status".toList) ∧
    (wsMsgBogus.type ≠ "ota_update".toList) ∧
    handleWebSocketMessage wsMsgBogus false st0 = (st0, Effects.noEff) :=
  ⟨by decide, by decide, by decide,
    c5_amended_three_types.2.2.2.2 wsMsgBogus false st0 (by decide) (by decide) (by decide)⟩

/-- C4 counterexample: starting from an all-zero EEPROM the deviceId is
generated from the MAC address (colons removed), but the configuration
flow never stores that identifier: with WiFi disconnected the storage
still reads back empty, and after a successful registration it holds the
server-assigned id, which differs from the generated one. -/
theorem c4_counterexample :
    ((setupConfigFlow romZero "AA:BB:CC:DD:EE:FF".toList false 0 [] [] st0).1.deviceId =
        "AABBCCDDEEFF".toList ∧
      eepromReadString
        (setupConfigFlow romZero "AA:BB:CC:DD:EE:FF".toList false 0 [] [] st0).2.1 0 = []) ∧
    (eepromReadString
        (setupConfigFlow romZero "AA:BB:CC:DD:EE:FF".toList true 200
          "srv1".toList "tok".toList st0).2.1 0 = "srv1".toList ∧
      "srv1".toList ≠ "AABBCCDDEEFF".toList) := by
  exact ⟨⟨by decide, by decide⟩, ⟨by decide, by decide⟩⟩

/-- C4 (amended): when `loadConfiguration` reads an empty deviceId it sets
the deviceId from the MAC address with the colons removed, but does not
persist it; the configuration flow leaves persistent storage unchanged
unless `registerDevice` succeeds with HTTP 200 or 201, and in that case
what is persisted is the server-assigned id and token, overwriting the
MAC-derived identifier. -/
theorem c4_mac_fallback_not_persisted (rom : EEPROM) (mac : ArdString) (st : DeviceState)
    (code : Int) (respId respTok : ArdString) :
    (eepromReadString rom 0 = [] → (loadConfiguration rom mac).1 = stripColons mac) ∧
    ((setupConfigFlow rom mac false code respId respTok st).2.1 = rom) ∧
    (¬ (code = 200 ∨ code = 201) →
      (setupConfigFlow rom mac true code respId respTok st).2.1 = rom) ∧
    ((code = 200 ∨ code = 201) →
      (setupConfigFlow rom mac true code respId respTok st).2.1 =
        saveConfiguration respId respTok rom ∧
      (setupConfigFlow rom mac true code respId respTok st).1.deviceId = respId) := by
  refine ⟨?_, rfl, ?_, ?_⟩
  · intro h
    simp [loadConfiguration, h]
  · intro hc
    simp only [setupConfigFlow, registerDevice]
    rw [if_pos trivial, if_neg hc]
  · intro hc
    constructor
    · simp only [setupConfigFlow, registerDevice]
      rw [if_pos trivial, if_pos hc]
    · simp only [setupConfigFlow, registerDevice]
      rw [if_pos trivial, if_pos hc]

/-- Witness for C4 (amended) at a concrete empty EEPROM and MAC. -/
theorem c4_witness :
    (eepromReadString romZero 0 = []) ∧
    (loadConfiguration romZero "AA:BB".toList).1 = stripColons "AA:BB".toList ∧
    (setupConfigFlow romZero "AA:BB".toList false 0 [] [] st0).2.1 = romZero :=
  ⟨by decide,
    (c4_mac_fallback_not_persisted romZero "AA:BB".toList st0 0 [] []).1 (by decide),
    (c4_mac_fallback_not_persisted romZero "AA:BB".toList st0 0 [] []).2.1⟩
